import Mathlib

/-!
Verification development for the Smart Micro-Pause playback controller and the
learning-panel state machine of the learnanything frontend.

The definitions below are a shallow embedding of
`src/frontend/src/hooks/useSmartMicroPause.ts` and of the session-construction
and panel-state handling code in `src/frontend/src/App.tsx`.

Modelling conventions:
- TypeScript numbers that hold video times are modelled as rationals.
- Optional fields (`startTime?: number`) are `Option` values; the nullish
  coalescing operator `a ?? b` is `Option.orElse`; the JavaScript truthiness
  coercion `x || null` on a number maps 0 to `none` and any other value to
  `some x`.
- JavaScript `Array.prototype.sort` with a numeric comparator is a stable
  ascending sort, modelled with `List.insertionSort`.
- React state setters become explicit state record updates; callback
  invocations (`onStateChange`, `onWordEncountered`) and player commands
  become an ordered output list.
- Calls on the external player widget: calling a missing method throws a
  TypeError (caught where the source has try/catch and then issues no
  command); the two probe methods used by the readiness check can also
  throw or return non-numeric values, modelling a stale iframe.
-/

/-- The four learning-panel states, from `src/frontend/src/types` (`LearningPanelState`). -/
inductive LearningPanelState where
  | preview
  | cruising
  | focus
  | summary
deriving DecidableEq

/-- A vocabulary item (focus word). Only the fields read by the scheduler and
session construction are modelled: display-only fields are omitted. Both the
legacy (`timestamp`, `end_time`) and the new (`startTime`, `endTime`) timing
fields exist, each possibly absent. -/
structure Vocabulary where
  word : String
  startTime : Option ℚ
  endTime : Option ℚ
  timestamp : Option ℚ
  end_time : Option ℚ
deriving DecidableEq

/-- Resolved start bound: `word.startTime ?? word.timestamp`. -/
def wordStart (w : Vocabulary) : Option ℚ :=
  w.startTime.orElse fun _ => w.timestamp

/-- Resolved end bound: `word.endTime ?? word.end_time`. -/
def wordEnd (w : Vocabulary) : Option ℚ :=
  w.endTime.orElse fun _ => w.end_time

/-- The eligibility filter used by the scheduler:
`typeof startTime === number && typeof endTime === number` on the resolved
bounds. Note that no ordering between the two bounds is checked. -/
def hasTimes (w : Vocabulary) : Bool :=
  (wordStart w).isSome && (wordEnd w).isSome

/-- Sort key used by every sort site: `a.startTime ?? a.timestamp ?? 0`.
For an eligible word this is its resolved start time. The `(x || 0)`
truthiness coercion in the comparator is the identity on the claims
relevant here since it maps 0 to 0 and any other number to itself. -/
def startKey (w : Vocabulary) : ℚ :=
  (wordStart w).getD 0

/-- Ascending-by-start-key ordering on vocabulary items. -/
def byStart (a b : Vocabulary) : Prop :=
  startKey a ≤ startKey b

instance : DecidableRel byStart :=
  fun a b => inferInstanceAs (Decidable (startKey a ≤ startKey b))

instance : IsTotal Vocabulary byStart :=
  ⟨fun a b => le_total (startKey a) (startKey b)⟩

instance : IsTrans Vocabulary byStart :=
  ⟨fun _ _ _ hab hbc => le_trans hab hbc⟩

/-- Stable ascending sort by start key, modelling
`words.sort((a, b) => (a.startTime ?? a.timestamp ?? 0) - (b.startTime ?? b.timestamp ?? 0))`. -/
def sortByStartKey (ws : List Vocabulary) : List Vocabulary :=
  List.insertionSort byStart ws

/-- The scheduling list built by `startWatching` and `continueToNextWord`:
filter to words with both resolved bounds numeric, then sort ascending by
start key. -/
def sortedEligible (ws : List Vocabulary) : List Vocabulary :=
  sortByStartKey (ws.filter hasTimes)

/-- A learning session, from `src/frontend/src/types` (`LearningSession`).
The `id`, `videoId` and `status` fields are display glue and omitted. -/
structure LearningSession where
  sessionNumber : ℕ
  totalSessions : ℕ
  focusWords : List Vocabulary
  startTime : ℚ
  endTime : ℚ
deriving DecidableEq

/-- Result of probing a player method: the call can throw (stale iframe),
return a non-numeric value, or return a number. -/
inductive ProbeResult where
  | throws
  | nonNumeric
  | num (v : ℚ)
deriving DecidableEq

/-- The external video-widget handle. The five `has*` flags model
`typeof playerObj.m === "function"` checks; the two probe fields model what
`getPlayerState()` and `getCurrentTime()` return when called by the
readiness check. -/
structure Player where
  hasSeekTo : Bool
  hasGetCurrentTime : Bool
  hasGetPlayerState : Bool
  hasPauseVideo : Bool
  hasPlayVideo : Bool
  stateProbe : ProbeResult
  timeProbe : ProbeResult
deriving DecidableEq

/-- Embedding of `isPlayerReadyCheck` (useSmartMicroPause.ts lines 30-54):
null handle fails; each of the four checked methods
(`getCurrentTime`, `getPlayerState`, `pauseVideo`, `playVideo`) must be a
function; then both probe calls must return numbers without throwing. -/
def isPlayerReadyCheck : Option Player → Bool
  | none => false
  | some p =>
    if !p.hasGetCurrentTime then false
    else if !p.hasGetPlayerState then false
    else if !p.hasPauseVideo then false
    else if !p.hasPlayVideo then false
    else
      match p.stateProbe, p.timeProbe with
      | ProbeResult.num _, ProbeResult.num _ => true
      | _, _ => false

/-- Scheduler-local state of the hook: the two `useState` values, the
`lastCheckedTime` ref and whether the polling interval is installed. -/
structure SchedulerState where
  isWatching : Bool
  currentWordIndex : ℕ
  nextWordTimestamp : Option ℚ
  lastCheckedTime : ℚ
  intervalActive : Bool
deriving DecidableEq

/-- Commands issued to the player widget. -/
inductive PlayerCmd where
  | seekTo (t : ℚ)
  | play
  | pause
deriving DecidableEq

/-- Observable outputs of a scheduler call: player commands and the two
callbacks `onWordEncountered` and `onStateChange`, in issue order. -/
inductive Out where
  | cmd (c : PlayerCmd)
  | encountered (w : Vocabulary)
  | stateChange (s : LearningPanelState)
deriving DecidableEq

/-- Minimum gap between the end of one trigger word and the start of the
next, `MIN_GAP_SECONDS = 8.0` in `continueToNextWord`. -/
def MIN_GAP_SECONDS : ℚ := 8

/-- Trigger buffer, the `0.3` in `currentTime >= nextWordTimestamp - 0.3`. -/
def bufferSeconds : ℚ := 3/10

/-- Dedup threshold, the `0.5` of
`Math.abs(currentTime - lastCheckedTime.current) < 0.5`. -/
def dedupSeconds : ℚ := 1/2

/-- Embedding of `startWatching` (useSmartMicroPause.ts lines 57-117).
Returns the updated scheduler state and the outputs. The early returns (no
session, empty word list, failed readiness check, no eligible words) leave
the state unchanged and produce no output. Otherwise the state is armed and
the widget is sought to `max 0 session.startTime` and played inside a
try/catch: a missing `seekTo` throws, skipping both commands; a missing
`playVideo` throws after the seek. -/
def startWatching (player : Option Player) (currentSession : Option LearningSession)
    (s : SchedulerState) : SchedulerState × List Out :=
  match currentSession with
  | none => (s, [])
  | some sess =>
    if sess.focusWords.isEmpty then (s, [])
    else if !isPlayerReadyCheck player then (s, [])
    else
      match sortedEligible sess.focusWords with
      | [] => (s, [])
      | w0 :: _ =>
        let firstWordEndTime : ℚ := (wordEnd w0).getD 0
        let s' : SchedulerState :=
          { s with
            isWatching := true
            currentWordIndex := 0
            nextWordTimestamp := if firstWordEndTime = 0 then none else some firstWordEndTime
            lastCheckedTime := 0 }
        let startingTimestamp : ℚ := max 0 sess.startTime
        let outs : List Out :=
          match player with
          | none => []
          | some p =>
            if p.hasSeekTo then
              Out.cmd (PlayerCmd.seekTo startingTimestamp) ::
                (if p.hasPlayVideo then [Out.cmd PlayerCmd.play] else [])
            else []
        (s', outs)

/-- Embedding of `stopWatching` (useSmartMicroPause.ts lines 120-131):
reset the two state values and the next trigger, clear the interval.
The `lastCheckedTime` ref is not touched. -/
def stopWatching (s : SchedulerState) : SchedulerState :=
  { s with
    isWatching := false
    currentWordIndex := 0
    nextWordTimestamp := none
    intervalActive := false }

/-- The forward scan of `continueToNextWord`: starting at index `i`, advance
past every candidate whose start key is less than `currentEnd + 8`, stopping
at the first index that is out of bounds or has an adequate gap. -/
def scanNext (ws : List Vocabulary) (currentEnd : ℚ) (i : ℕ) : ℕ :=
  if h : i < ws.length then
    if startKey (ws.get ⟨i, h⟩) - currentEnd ≥ MIN_GAP_SECONDS then i
    else scanNext ws currentEnd (i + 1)
  else i
termination_by ws.length - i
decreasing_by simp_wf; omega

/-- Embedding of `continueToNextWord` (useSmartMicroPause.ts lines 134-242).
No-op unless a session exists and `isWatching` holds. Otherwise rebuild the
scheduling list, take the resolved end of the word at the current index
(0 when the index is out of bounds), scan forward for the first candidate
with a gap of at least 8 seconds; on success advance the index, set the next
trigger (`endTime || null`, so an end time of 0 becomes `none`), emit the
cruising state change and, if the player passes the readiness check, resume
playback; on failure clear `isWatching` and emit the summary state change. -/
def continueToNextWord (player : Option Player) (currentSession : Option LearningSession)
    (s : SchedulerState) : SchedulerState × List Out :=
  match currentSession with
  | none => (s, [])
  | some sess =>
    if !s.isWatching then (s, [])
    else
      let sortedWords := sortedEligible sess.focusWords
      let currentWordEndTime : ℚ := ((sortedWords.get? s.currentWordIndex).bind wordEnd).getD 0
      let nextIndex := scanNext sortedWords currentWordEndTime (s.currentWordIndex + 1)
      if h : nextIndex < sortedWords.length then
        let nextWordEndTime : ℚ := (wordEnd (sortedWords.get ⟨nextIndex, h⟩)).getD 0
        let s' : SchedulerState :=
          { s with
            currentWordIndex := nextIndex
            nextWordTimestamp := if nextWordEndTime = 0 then none else some nextWordEndTime }
        let resume : List Out :=
          if isPlayerReadyCheck player then [Out.cmd PlayerCmd.play] else []
        (s', Out.stateChange LearningPanelState.cruising :: resume)
      else
        ({ s with isWatching := false }, [Out.stateChange LearningPanelState.summary])

/-- One observation of the player during a polling tick: the outcome of the
readiness re-check and what `getCurrentTime()` and `getPlayerState()` return. -/
structure Tick where
  ready : Bool
  time : ProbeResult
  state : ProbeResult
deriving DecidableEq

/-- Embedding of one polling tick (`checkVideoTime`, useSmartMicroPause.ts
lines 267-348, together with the interval guard of the monitoring effect:
the interval only exists while `isWatching` holds and `nextWordTimestamp` is
non-null, so a tick in any other state does nothing). A live tick aborts
silently if the readiness re-check fails, a probe misbehaves, or the player
is not in the playing state (code 1); it is deduplicated when the video time
moved less than 0.5s since the last accepted tick; otherwise it records the
time and, past `nextWordTimestamp - 0.3`, pauses the playing widget, emits
the encountered word at the current index and the focus state change, and
clears the trigger. When the current index has no word, nothing fires. -/
def checkVideoTime (currentSession : Option LearningSession) (s : SchedulerState)
    (t : Tick) : SchedulerState × List Out :=
  match s.nextWordTimestamp with
  | none => (s, [])
  | some T =>
    if !s.isWatching then (s, [])
    else if !t.ready then (s, [])
    else
      match t.time, t.state with
      | ProbeResult.num currentTime, ProbeResult.num playerState =>
        if playerState ≠ 1 then (s, [])
        else if |currentTime - s.lastCheckedTime| < dedupSeconds then (s, [])
        else
          let s1 := { s with lastCheckedTime := currentTime }
          if currentTime ≥ T - bufferSeconds then
            let sortedWords :=
              sortedEligible ((currentSession.map LearningSession.focusWords).getD [])
            match sortedWords.get? s.currentWordIndex with
            | some targetWord =>
              ({ s1 with nextWordTimestamp := none },
                [Out.cmd PlayerCmd.pause, Out.encountered targetWord,
                 Out.stateChange LearningPanelState.focus])
            | none => (s1, [])
          else (s1, [])
      | _, _ => (s, [])

/-- Run a sequence of polling ticks, accumulating outputs in order. -/
def runTicks (currentSession : Option LearningSession) (s : SchedulerState) :
    List Tick → SchedulerState × List Out
  | [] => (s, [])
  | t :: ts =>
    let r := checkVideoTime currentSession s t
    let rest := runTicks currentSession r.1 ts
    (rest.1, r.2 ++ rest.2)

/-- Count of word-encountered events in an output list. -/
def countEncountered (outs : List Out) : ℕ :=
  outs.countP fun o => match o with | Out.encountered _ => true | _ => false

/-- Resolved end of the last word of a list, with a fallback when the list is
empty: `lastWord ? (lastWord.endTime ?? lastWord.end_time ?? dflt) : fallback`. -/
def lastWordEnd (ws : List Vocabulary) (dflt fallback : ℚ) : ℚ :=
  match ws.getLast? with
  | some w => (wordEnd w).getD dflt
  | none => fallback

/-- Session construction of `handleExtractContent` (App.tsx lines 324-364):
one backend session is converted by sorting its focus words by start key;
the session start time is 0 for the first session and otherwise the resolved
end of the last-by-start-key word of the previous backend session (0 when
the previous session is empty); the session end time is the resolved end of
the last sorted word, falling back to the start time for an empty list. -/
def mkBackendSession (index sessionNumber totalSessions : ℕ)
    (prevWords words : List Vocabulary) : LearningSession :=
  let sortedWords := sortByStartKey words
  let sessionStartTime : ℚ :=
    if index = 0 then 0
    else
      match (sortByStartKey prevWords).getLast? with
      | some w => (wordEnd w).getD 0
      | none => 0
  let sessionEndTime : ℚ := lastWordEnd sortedWords 0 sessionStartTime
  { sessionNumber := sessionNumber
    totalSessions := totalSessions
    focusWords := sortedWords
    startTime := sessionStartTime
    endTime := sessionEndTime }

/-- Fallback session of `handleExtractContent` (App.tsx lines 377-396): the
first five vocabulary items sorted by start key, start time 0, end time the
resolved end of the last sorted word (0 for an empty list). -/
def mkFallbackSession (vocab : List Vocabulary) : LearningSession :=
  let sessionWords := sortByStartKey (vocab.take 5)
  { sessionNumber := 1
    totalSessions := (vocab.length + 4) / 5
    focusWords := sessionWords
    startTime := 0
    endTime := lastWordEnd sessionWords 0 0 }

/-- Replacement branch of `handleWordMastered` (App.tsx lines 456-479):
substitute the replacement for every word with the mastered text, re-sort by
start key, and recalculate the end time as the resolved end of the last
sorted word (falling back to the previous session end time). -/
def replaceMastered (sess : LearningSession) (target : String)
    (replacement : Vocabulary) : LearningSession :=
  let sortedWords :=
    sortByStartKey (sess.focusWords.map fun w => if w.word = target then replacement else w)
  { sess with
    focusWords := sortedWords
    endTime := lastWordEnd sortedWords sess.endTime sess.endTime }

/-- Removal branch of `handleWordMastered` (App.tsx lines 481-495): filter
out the mastered word without re-sorting and recalculate the end time as the
resolved end of the last remaining word (falling back to the session start
time). -/
def removeMastered (sess : LearningSession) (target : String) : LearningSession :=
  let filteredWords := sess.focusWords.filter fun w => w.word ≠ target
  { sess with
    focusWords := filteredWords
    endTime := lastWordEnd filteredWords sess.startTime sess.startTime }

/-- Catch fallback of `handleWordMastered` (App.tsx lines 507-517): when the
replacement service call throws, the mastered word is filtered out and the
session is updated with only the new word list; the previous endTime is kept
unchanged, with no recalculation from the remaining words. -/
def removeMasteredFallback (sess : LearningSession) (target : String) : LearningSession :=
  { sess with focusWords := sess.focusWords.filter fun w => w.word ≠ target }

/-- Specification-side reading of the session invariant: the maximum resolved
end time over the words of a session (0 for an empty session). Written from
the words of the spec for comparison with what the code computes. -/
def maxWordEnd (sess : LearningSession) : ℚ :=
  (sess.focusWords.map fun w => (wordEnd w).getD 0).foldr max 0

/-- Application-level state relevant to the learning-panel state machine:
the panel state, the scheduler state, and the session bookkeeping of App. -/
structure AppState where
  panel : LearningPanelState
  sched : SchedulerState
  currentSession : Option LearningSession
  allSessions : List LearningSession
  currentSessionIndex : ℕ
deriving DecidableEq

/-- Events that can reach the panel-state handling code of App: a polling
tick of the scheduler, the user actions exposed by the four panel views and
by the legacy vocabulary list, and the host-level actions. The boolean on
`startWatchingClick` is the `player && isPlayerReady` flag guarding the
`startWatching()` call in `handleStartWatching`; `wordMastered` carries the
replacement outcome of the external service. -/
inductive UEvent where
  | schedTick (t : Tick)
  | practiceComplete
  | startWatchingClick (flagReady : Bool)
  | wordClickItem (w : Vocabulary)
  | nextSessionClick
  | reviewSessionClick
  | extractContentDone (sessions : List LearningSession)
  | backToHomepage
  | wordMastered (replacement : Option Vocabulary) (target : String)
deriving DecidableEq

/-- Apply the `onStateChange` callbacks of an output list to the panel state
in order (`handleStateChange` stores the requested state verbatim). -/
def applyOuts (p : LearningPanelState) (outs : List Out) : LearningPanelState :=
  outs.foldl (fun acc o => match o with | Out.stateChange st => st | _ => acc) p

/-- The auto start/stop effect of the hook (useSmartMicroPause.ts lines
372-378): entering cruising without an active watch and with a session
starts watching; any panel state other than cruising and focus stops it. -/
def autoSync (player : Option Player) (st : AppState) : AppState :=
  if st.panel = LearningPanelState.cruising ∧ !st.sched.isWatching ∧
      st.currentSession.isSome then
    { st with sched := (startWatching player st.currentSession st.sched).1 }
  else if st.panel ≠ LearningPanelState.cruising ∧ st.panel ≠ LearningPanelState.focus then
    { st with sched := stopWatching st.sched }
  else st

/-- One event-handling step of App, before the auto start/stop effect.
Each branch follows the corresponding handler in App.tsx; events whose UI
control is only rendered in a given panel state are guarded by that state
(practice completion by focus, start watching and word mastery by preview,
next session and review by summary), while `handleWordClick` guards itself
on cruising or preview and the host actions are unguarded. -/
def stepCore (player : Option Player) (st : AppState) : UEvent → AppState
  | UEvent.schedTick t =>
    let r := checkVideoTime st.currentSession st.sched t
    { st with sched := r.1, panel := applyOuts st.panel r.2 }
  | UEvent.practiceComplete =>
    if st.panel = LearningPanelState.focus then
      let r := continueToNextWord player st.currentSession st.sched
      { st with sched := r.1, panel := applyOuts st.panel r.2 }
    else st
  | UEvent.startWatchingClick flagReady =>
    if st.panel = LearningPanelState.preview then
      let st1 := { st with panel := LearningPanelState.cruising }
      if flagReady then
        { st1 with sched := (startWatching player st1.currentSession st1.sched).1 }
      else st1
    else st
  | UEvent.wordClickItem _ =>
    if st.panel = LearningPanelState.cruising ∨ st.panel = LearningPanelState.preview then
      { st with panel := LearningPanelState.focus }
    else st
  | UEvent.nextSessionClick =>
    if st.panel = LearningPanelState.summary then
      if st.currentSessionIndex + 1 < st.allSessions.length then
        { st with
          currentSessionIndex := st.currentSessionIndex + 1
          currentSession := st.allSessions.get? (st.currentSessionIndex + 1)
          panel := LearningPanelState.preview }
      else st
    else st
  | UEvent.reviewSessionClick =>
    if st.panel = LearningPanelState.summary then
      { st with panel := LearningPanelState.preview }
    else st
  | UEvent.extractContentDone sessions =>
    match sessions.head? with
    | some s0 =>
      { st with
        allSessions := sessions
        currentSessionIndex := 0
        currentSession := some s0
        panel := LearningPanelState.preview }
    | none => st
  | UEvent.backToHomepage =>
    { st with
      currentSession := none
      allSessions := []
      panel := LearningPanelState.preview }
  | UEvent.wordMastered replacement target =>
    if st.panel = LearningPanelState.preview then
      match st.currentSession, replacement with
      | some sess, some r => { st with currentSession := some (replaceMastered sess target r) }
      | some sess, none => { st with currentSession := some (removeMastered sess target) }
      | none, _ => st
    else st

/-- Full event step of App: the handler followed by the auto start/stop
effect, which only touches the scheduler state, never the panel state. -/
def step (player : Option Player) (st : AppState) (e : UEvent) : AppState :=
  autoSync player (stepCore player st e)

/-- A fully capable, healthy player handle. -/
def okPlayer : Player :=
  ⟨true, true, true, true, true, ProbeResult.num 1, ProbeResult.num 0⟩

/-- A handle with the four checked methods and healthy probes but no seekTo. -/
def seeklessPlayer : Player :=
  ⟨false, true, true, true, true, ProbeResult.num 1, ProbeResult.num 0⟩

/-- The initial scheduler state of the hook. -/
def initialSched : SchedulerState :=
  ⟨false, 0, none, 0, false⟩

/-- A word whose resolved end time precedes its resolved start time. -/
def reversedWord : Vocabulary := ⟨"x", some 10, some 5, none, none⟩

/-- A session holding only the reversed-bounds word. -/
def reversedSession : LearningSession := ⟨1, 1, [reversedWord], 0, 5⟩

/-- A word ending at time 0 exactly. -/
def zeroEndWord : Vocabulary := ⟨"z", some 0, some 0, none, none⟩

/-- A session whose only eligible word ends at time 0. -/
def zeroEndSession : LearningSession := ⟨1, 1, [zeroEndWord], 0, 0⟩

/-- First word of the gap counterexample: sentence from 0 to 1. -/
def gapWord0 : Vocabulary := ⟨"go", some 0, some 1, none, none⟩

/-- Second word of the gap counterexample: starts at 9 (gap exactly 8 after
the end of the first word) but with resolved end time 0. -/
def gapWord1 : Vocabulary := ⟨"run", some 9, some 0, none, none⟩

/-- Session for the continue-to-next-word counterexample. -/
def gapSession : LearningSession := ⟨1, 1, [gapWord0, gapWord1], 0, 1⟩

/-- Scheduler state armed at index 0 of the gap session. -/
def gapSched : SchedulerState := ⟨true, 0, some 1, 0, true⟩

/-- A session whose single word ends at time 1/2, so that the trigger window
starts at 1/5, inside the initial 1/2-second dedup window. -/
def nearSession : LearningSession := ⟨1, 1, [⟨"go", some 0, some (1/2), none, none⟩], 0, 1/2⟩

/-- A session with a single word from 1 to 2. -/
def armSession : LearningSession := ⟨1, 1, [⟨"a", some 1, some 2, none, none⟩], 0, 2⟩

/-- An app state sitting in the cruising panel state. -/
def cruisingApp : AppState :=
  ⟨LearningPanelState.cruising, ⟨true, 0, none, 0, false⟩, none, [], 0⟩

/-- A word with no timing data, as clicked in the legacy vocabulary list. -/
def clickWord : Vocabulary := ⟨"c", none, none, none, none⟩

/-! ## General lemmas -/

theorem autoSync_panel (player : Option Player) (st : AppState) :
    (autoSync player st).panel = st.panel := by
  unfold autoSync
  split
  · rfl
  · split <;> rfl

/-! ## Claim C8 -/

/-- Claim C8: stopWatching is idempotent: calling it twice in a row from any
scheduler state yields the same end state as calling it once, namely
isWatching false, word index 0, no next trigger, polling interval cleared. -/
theorem stopWatching_idem (s : SchedulerState) :
    stopWatching (stopWatching s) = stopWatching s ∧
    (stopWatching s).isWatching = false ∧
    (stopWatching s).currentWordIndex = 0 ∧
    (stopWatching s).nextWordTimestamp = none ∧
    (stopWatching s).intervalActive = false :=
  ⟨rfl, rfl, rfl, rfl, rfl⟩

/-! ## Claim C10 -/

/-- Claim C10: when isWatching is false or no session exists,
continueToNextWord is a complete no-op: the scheduler state is unchanged and
no callback fires and no player command is issued. -/
theorem continueToNextWord_noop (player : Option Player)
    (currentSession : Option LearningSession) (s : SchedulerState)
    (h : s.isWatching = false ∨ currentSession = none) :
    continueToNextWord player currentSession s = (s, []) := by
  cases currentSession with
  | none => rfl
  | some sess =>
    rcases h with h | h
    · simp [continueToNextWord, h]
    · simp at h

/-- Claim C10 witness: the no-op instance at the initial state with no
session. -/
theorem continueToNextWord_noop_witness :
    continueToNextWord none none initialSched = (initialSched, []) :=
  continueToNextWord_noop none none initialSched (Or.inr rfl)

/-! ## Claim C9 -/

/-- Claim C9: startWatching is a no-op raising nothing when the session is
missing or has no eligible words, or when the player fails the readiness
check: the scheduler state is unchanged and no output is produced. -/
theorem startWatching_noop (player : Option Player)
    (currentSession : Option LearningSession) (s : SchedulerState)
    (h : currentSession = none ∨
         (∃ sess, currentSession = some sess ∧ sortedEligible sess.focusWords = []) ∨
         isPlayerReadyCheck player = false) :
    startWatching player currentSession s = (s, []) := by
  cases currentSession with
  | none => rfl
  | some sess =>
    rcases h with h | ⟨sess2, heq, hempty⟩ | h
    · simp at h
    · injection heq with heq
      subst heq
      simp only [startWatching]
      by_cases he : sess.focusWords.isEmpty <;> simp [he, hempty]
    · simp only [startWatching]
      by_cases he : sess.focusWords.isEmpty <;> simp [he, h]

/-- Claim C9 witness: the no-op instance with no session at the initial
state. -/
theorem startWatching_noop_witness :
    startWatching none none initialSched = (initialSched, []) :=
  startWatching_noop none none initialSched (Or.inl rfl)

/-! ## Claim C5 -/

/-- Claim C5 counterexample: a handle that lacks seekTo but has the four
methods the code actually checks and healthy numeric probes passes the
readiness check, contradicting the claim that lacking any of the five listed
methods forces a false result. -/
theorem isPlayerReadyCheck_no_seekTo_check :
    isPlayerReadyCheck (some seeklessPlayer) = true ∧
    seeklessPlayer.hasSeekTo = false :=
  ⟨rfl, rfl⟩

/-- Claim C5 (amended): the readiness check returns false for a null handle,
for a handle lacking any of the four checked capability methods
(getCurrentTime, getPlayerState, pauseVideo, playVideo), and when a probe
call throws or returns a non-numeric value; it returns true otherwise.
The seekTo method is not part of the check. -/
theorem isPlayerReadyCheck_spec (po : Option Player) :
    isPlayerReadyCheck po = true ↔
      ∃ p, po = some p ∧ p.hasGetCurrentTime = true ∧ p.hasGetPlayerState = true ∧
        p.hasPauseVideo = true ∧ p.hasPlayVideo = true ∧
        (∃ v, p.stateProbe = ProbeResult.num v) ∧ ∃ v, p.timeProbe = ProbeResult.num v := by
  cases po with
  | none => simp [isPlayerReadyCheck]
  | some p =>
    obtain ⟨sk, gc, gp, pa, pl, sp, tp⟩ := p
    simp only [isPlayerReadyCheck, Option.some.injEq]
    cases gc <;> cases gp <;> cases pa <;> cases pl <;>
      simp <;> cases sp <;> cases tp <;> simp

/-! ## Claim C6 -/

/-- Claim C6 counterexample: a word whose resolved end time 5 precedes its
resolved start time 10 passes the scheduling filter, and startWatching on a
session holding only that word arms the scheduler with that word as the
pause target, contradicting the claim that such words are excluded from
scheduling. -/
theorem reversedWord_scheduled :
    reversedWord ∈ sortedEligible reversedSession.focusWords ∧
    wordStart reversedWord = some 10 ∧
    wordEnd reversedWord = some 5 ∧
    (5 : ℚ) < 10 ∧
    (startWatching (some okPlayer) (some reversedSession) initialSched).1.nextWordTimestamp =
      some 5 ∧
    (startWatching (some okPlayer) (some reversedSession) initialSched).1.currentWordIndex = 0 ∧
    (startWatching (some okPlayer) (some reversedSession) initialSched).1.isWatching = true := by
  refine ⟨?_, rfl, rfl, by norm_num, rfl, rfl, rfl⟩
  show reversedWord ∈ [reversedWord]
  exact List.mem_singleton.mpr rfl

/-- Claim C6 (amended): the scheduling list built by startWatching and
continueToNextWord retains exactly the session words having both resolved
bounds numeric; no ordering between start and end is checked, so a word with
its end time before its start time stays schedulable and no word ever raises
an error (the embedding is total). -/
theorem sortedEligible_mem (ws : List Vocabulary) (w : Vocabulary) :
    w ∈ sortedEligible ws ↔
      w ∈ ws ∧ (wordStart w).isSome = true ∧ (wordEnd w).isSome = true := by
  unfold sortedEligible sortByStartKey
  rw [List.mem_insertionSort]
  simp [List.mem_filter, hasTimes]

/-! ## Claim C4 -/

/-- Claim C4 counterexample: converting a backend session whose first word by
start time ends at 100 while its last word by start time ends at 6 produces
a session end time of 6, not the maximum end time 100 over its words. -/
theorem sessionEndTime_not_max :
    (mkBackendSession 0 1 1 [] [⟨"a", some 0, some 100, none, none⟩,
        ⟨"b", some 5, some 6, none, none⟩]).endTime = 6 ∧
    maxWordEnd (mkBackendSession 0 1 1 [] [⟨"a", some 0, some 100, none, none⟩,
        ⟨"b", some 5, some 6, none, none⟩]) = 100 ∧
    (6 : ℚ) ≠ 100 := by
  have hsort : sortByStartKey [(⟨"a", some 0, some 100, none, none⟩ : Vocabulary),
      ⟨"b", some 5, some 6, none, none⟩] =
      [⟨"a", some 0, some 100, none, none⟩, ⟨"b", some 5, some 6, none, none⟩] := by
    unfold sortByStartKey
    simp [List.insertionSort, List.orderedInsert, byStart, startKey, wordStart]
  refine ⟨?_, ?_, by norm_num⟩
  · simp [mkBackendSession, hsort, lastWordEnd, wordEnd]
  · simp [maxWordEnd, mkBackendSession, hsort, wordEnd]
    norm_num

/-- Claim C4 (amended): every constructed or updated session has focusWords
sorted ascending by start key (both removal paths preserve sortedness of an
already sorted session). At the two construction sites and the two
recalculating update sites of handleWordMastered, endTime equals the
resolved end time of the last word in that order (with the per-site
fallback), which equals the maximum end time over the words only when the
last word by start key also carries the maximal end time; the catch
fallback of handleWordMastered removes the word but keeps the previous
endTime unchanged, so there endTime need not match the remaining words at
all. -/
theorem session_invariant_amended :
    (∀ i n t prev ws, List.Sorted byStart (mkBackendSession i n t prev ws).focusWords ∧
      (mkBackendSession i n t prev ws).endTime =
        lastWordEnd (mkBackendSession i n t prev ws).focusWords 0
          (mkBackendSession i n t prev ws).startTime) ∧
    (∀ vocab, List.Sorted byStart (mkFallbackSession vocab).focusWords ∧
      (mkFallbackSession vocab).endTime =
        lastWordEnd (mkFallbackSession vocab).focusWords 0 0) ∧
    (∀ sess target r, List.Sorted byStart (replaceMastered sess target r).focusWords ∧
      (replaceMastered sess target r).endTime =
        lastWordEnd (replaceMastered sess target r).focusWords sess.endTime sess.endTime) ∧
    (∀ sess target, List.Sorted byStart sess.focusWords →
      List.Sorted byStart (removeMastered sess target).focusWords ∧
      (removeMastered sess target).endTime =
        lastWordEnd (removeMastered sess target).focusWords sess.startTime sess.startTime) ∧
    (∀ sess target, List.Sorted byStart sess.focusWords →
      List.Sorted byStart (removeMasteredFallback sess target).focusWords ∧
      (removeMasteredFallback sess target).endTime = sess.endTime) := by
  refine ⟨fun i n t prev ws => ⟨?_, rfl⟩, fun vocab => ⟨?_, rfl⟩,
    fun sess target r => ⟨?_, rfl⟩, fun sess target hs => ⟨?_, rfl⟩,
    fun sess target hs => ⟨?_, rfl⟩⟩
  · exact List.sorted_insertionSort byStart ws
  · exact List.sorted_insertionSort byStart (vocab.take 5)
  · exact List.sorted_insertionSort byStart _
  · exact List.Pairwise.sublist (List.filter_sublist sess.focusWords) hs
  · exact List.Pairwise.sublist (List.filter_sublist sess.focusWords) hs

/-- Claim C4 witness: the amended invariant instantiated at both removal
paths, the recalculating one at an empty session and the catch fallback at
a one-word session, discharging the sortedness hypotheses. -/
theorem session_invariant_amended_witness :
    (List.Sorted byStart (removeMastered ⟨1, 1, [], 0, 0⟩ "x").focusWords ∧
      (removeMastered ⟨1, 1, [], 0, 0⟩ "x").endTime =
        lastWordEnd (removeMastered ⟨1, 1, [], 0, 0⟩ "x").focusWords 0 0) ∧
    (List.Sorted byStart (removeMasteredFallback reversedSession "x").focusWords ∧
      (removeMasteredFallback reversedSession "x").endTime = reversedSession.endTime) :=
  ⟨session_invariant_amended.2.2.2.1 ⟨1, 1, [], 0, 0⟩ "x" List.sorted_nil,
   session_invariant_amended.2.2.2.2 reversedSession "x"
     (List.sorted_singleton reversedWord)⟩

/-! ## Claim C1 -/

/-- Helper fields lemma: a handle passing the readiness check has the four
checked methods. -/
theorem ready_fields (p : Player) (h : isPlayerReadyCheck (some p) = true) :
    p.hasGetCurrentTime = true ∧ p.hasGetPlayerState = true ∧
    p.hasPauseVideo = true ∧ p.hasPlayVideo = true := by
  obtain ⟨sk, gc, gp, pa, pl, sp, tp⟩ := p
  cases gc <;> cases gp <;> cases pa <;> cases pl <;> simp_all [isPlayerReadyCheck]

/-- Characterization of the forward scan: the result is at least the start
index, every index passed over had an inadequate gap, and when the result is
in bounds it is the first index with an adequate gap. -/
theorem scanNext_spec (ws : List Vocabulary) (e : ℚ) :
    ∀ i, i ≤ scanNext ws e i ∧
      (∀ k, ∀ hk : k < ws.length, i ≤ k → k < scanNext ws e i →
        startKey (ws.get ⟨k, hk⟩) - e < MIN_GAP_SECONDS) ∧
      (∀ h : scanNext ws e i < ws.length,
        startKey (ws.get ⟨scanNext ws e i, h⟩) - e ≥ MIN_GAP_SECONDS) := by
  have H : ∀ n i, ws.length ≤ i + n →
      i ≤ scanNext ws e i ∧
      (∀ k, ∀ hk : k < ws.length, i ≤ k → k < scanNext ws e i →
        startKey (ws.get ⟨k, hk⟩) - e < MIN_GAP_SECONDS) ∧
      (∀ h : scanNext ws e i < ws.length,
        startKey (ws.get ⟨scanNext ws e i, h⟩) - e ≥ MIN_GAP_SECONDS) := by
    intro n
    induction n with
    | zero =>
      intro i hn
      have hnl : ¬ i < ws.length := by omega
      rw [scanNext, dif_neg hnl]
      refine ⟨Nat.le_refl i, fun k hk hik hki => absurd (Nat.lt_of_le_of_lt hik hki)
        (Nat.lt_irrefl i), fun h => absurd h hnl⟩
    | succ n ih =>
      intro i hn
      by_cases hl : i < ws.length
      · rw [scanNext, dif_pos hl]
        by_cases hg : startKey (ws.get ⟨i, hl⟩) - e ≥ MIN_GAP_SECONDS
        · rw [if_pos hg]
          exact ⟨Nat.le_refl i, fun k hk hik hki => absurd (Nat.lt_of_le_of_lt hik hki)
            (Nat.lt_irrefl i), fun h => hg⟩
        · rw [if_neg hg]
          obtain ⟨ih1, ih2, ih3⟩ := ih (i + 1) (by omega)
          refine ⟨Nat.le_trans (Nat.le_succ i) ih1, ?_, ih3⟩
          intro k hk hik hki
          rcases Nat.eq_or_lt_of_le hik with h | h
          · subst h
            exact lt_of_not_ge hg
          · exact ih2 k hk h hki
      · rw [scanNext, dif_neg hl]
        refine ⟨Nat.le_refl i, fun k hk hik hki => absurd (Nat.lt_of_le_of_lt hik hki)
          (Nat.lt_irrefl i), fun h => absurd h hl⟩
  intro i
  exact H ws.length i (by omega)

/-- Claim C1 (amended): for a session whose eligible scheduling list is ws
and a watching scheduler at an in-bounds index, continueToNextWord skips
every candidate with a gap below 8 seconds and either lands on the first
later index with an adequate gap, keeping isWatching, setting the next
trigger to the resolved end time of the landed word unless that end time is
0 (then null, by the `endTime || null` coercion), and emitting the cruising
state change, or, when no such index exists, clears isWatching and emits
exactly the summary state change. -/
theorem continueToNextWord_spec (player : Option Player) (sess : LearningSession)
    (s : SchedulerState) (ws : List Vocabulary) (ei : ℚ)
    (s2 : SchedulerState) (outs : List Out)
    (hws : ws = sortedEligible sess.focusWords)
    (hw : s.isWatching = true)
    (hi : s.currentWordIndex < ws.length)
    (hei : ei = ((ws.get? s.currentWordIndex).bind wordEnd).getD 0)
    (hr : continueToNextWord player (some sess) s = (s2, outs)) :
    ((∃ j, ∃ hj : j < ws.length, s.currentWordIndex < j ∧
        startKey (ws.get ⟨j, hj⟩) - ei ≥ MIN_GAP_SECONDS) →
      ∃ hj : s2.currentWordIndex < ws.length,
        s.currentWordIndex < s2.currentWordIndex ∧
        startKey (ws.get ⟨s2.currentWordIndex, hj⟩) - ei ≥ MIN_GAP_SECONDS ∧
        (∀ k, ∀ hk : k < ws.length, s.currentWordIndex < k → k < s2.currentWordIndex →
          startKey (ws.get ⟨k, hk⟩) - ei < MIN_GAP_SECONDS) ∧
        s2.nextWordTimestamp =
          (if (wordEnd (ws.get ⟨s2.currentWordIndex, hj⟩)).getD 0 = 0 then none
           else some ((wordEnd (ws.get ⟨s2.currentWordIndex, hj⟩)).getD 0)) ∧
        s2.isWatching = true ∧
        Out.stateChange LearningPanelState.cruising ∈ outs) ∧
    ((∀ j, ∀ hj : j < ws.length, s.currentWordIndex < j →
        startKey (ws.get ⟨j, hj⟩) - ei < MIN_GAP_SECONDS) →
      s2.isWatching = false ∧ outs = [Out.stateChange LearningPanelState.summary]) := by
  simp only [continueToNextWord, hw, Bool.not_true, Bool.false_eq_true, if_false] at hr
  rw [← hws, ← hei] at hr
  obtain ⟨hge, hskip, hgap⟩ := scanNext_spec ws ei (s.currentWordIndex + 1)
  constructor
  · rintro ⟨j, hj, hij, hjgap⟩
    have hJ : scanNext ws ei (s.currentWordIndex + 1) < ws.length := by
      by_contra hJn
      exact absurd (hskip j hj (Nat.succ_le_of_lt hij)
        (Nat.lt_of_lt_of_le hj (Nat.le_of_not_lt hJn))) (not_lt_of_ge hjgap)
    rw [dif_pos hJ] at hr
    injection hr with hs2 houts
    subst hs2
    subst houts
    refine ⟨hJ, Nat.lt_of_succ_le hge, hgap hJ, ?_, rfl, rfl, List.mem_cons_self _ _⟩
    intro k hk hik hkJ
    exact hskip k hk (Nat.succ_le_of_lt hik) hkJ
  · intro hall
    have hJ : ¬ scanNext ws ei (s.currentWordIndex + 1) < ws.length := by
      intro hJl
      exact absurd (hgap hJl) (not_le_of_lt (hall _ hJl (Nat.lt_of_succ_le hge)))
    rw [dif_neg hJ] at hr
    injection hr with hs2 houts
    subst hs2
    subst houts
    exact ⟨rfl, rfl⟩

/-- Evaluation helper: when the forward scan leaves the eligible list,
continueToNextWord takes the summary branch. -/
theorem continueToNextWord_eq_summary (player : Option Player) (sess : LearningSession)
    (s : SchedulerState)
    (hw : s.isWatching = true)
    (hJ : ¬ scanNext (sortedEligible sess.focusWords)
        ((((sortedEligible sess.focusWords).get? s.currentWordIndex).bind wordEnd).getD 0)
        (s.currentWordIndex + 1) < (sortedEligible sess.focusWords).length) :
    continueToNextWord player (some sess) s =
      ({ s with isWatching := false }, [Out.stateChange LearningPanelState.summary]) := by
  simp only [continueToNextWord, hw, Bool.not_true, Bool.false_eq_true, if_false]
  rw [dif_neg hJ]

/-- Evaluation helper: when the forward scan lands in bounds,
continueToNextWord advances to the landed index. -/
theorem continueToNextWord_eq_found (player : Option Player) (sess : LearningSession)
    (s : SchedulerState) (J : ℕ)
    (hw : s.isWatching = true)
    (hJeq : scanNext (sortedEligible sess.focusWords)
        ((((sortedEligible sess.focusWords).get? s.currentWordIndex).bind wordEnd).getD 0)
        (s.currentWordIndex + 1) = J)
    (hJ : J < (sortedEligible sess.focusWords).length) :
    continueToNextWord player (some sess) s =
      ({ s with
          currentWordIndex := J
          nextWordTimestamp :=
            if (wordEnd ((sortedEligible sess.focusWords).get ⟨J, hJ⟩)).getD 0 = 0 then none
            else some ((wordEnd ((sortedEligible sess.focusWords).get ⟨J, hJ⟩)).getD 0) },
        Out.stateChange LearningPanelState.cruising ::
          (if isPlayerReadyCheck player = true then [Out.cmd PlayerCmd.play] else [])) := by
  subst hJeq
  simp only [continueToNextWord, hw, Bool.not_true, Bool.false_eq_true, if_false]
  rw [dif_pos hJ]

/-- Claim C1 witness: the summary branch instantiated at a one-word session,
with every hypothesis discharged concretely. -/
theorem continueToNextWord_spec_witness :
    (⟨false, 0, some 2, 0, true⟩ : SchedulerState).isWatching = false ∧
    ([Out.stateChange LearningPanelState.summary] : List Out) =
      [Out.stateChange LearningPanelState.summary] :=
  (continueToNextWord_spec none armSession ⟨true, 0, some 2, 0, true⟩
      [⟨"a", some 1, some 2, none, none⟩] 2
      ⟨false, 0, some 2, 0, true⟩ [Out.stateChange LearningPanelState.summary]
      rfl rfl (by decide) rfl
      (continueToNextWord_eq_summary none armSession ⟨true, 0, some 2, 0, true⟩ rfl
        (by
          rw [show scanNext (sortedEligible armSession.focusWords)
              ((((sortedEligible armSession.focusWords).get? 0).bind wordEnd).getD 0) (0 + 1) =
              scanNext [(⟨"a", some 1, some 2, none, none⟩ : Vocabulary)] 2 1 from rfl,
            scanNext, dif_neg (by norm_num)]
          decide))).2
    (fun j hj hij =>
      absurd (Nat.lt_of_lt_of_le hij (Nat.le_of_lt_succ hj)) (Nat.lt_irrefl 0))

/-- Claim C1 counterexample: from index 0 of the eligible list
(go with times 0 to 1, run with start 9 and resolved end 0),
continueToNextWord lands on index 1, whose gap 9 - 1 = 8 meets the
threshold, but stores null instead of the landed word resolved end time 0,
because of the `endTime || null` truthiness coercion, refuting the claim
that the next trigger always equals the landed word end time. -/
theorem continueToNextWord_zeroEnd_cx :
    sortedEligible gapSession.focusWords = [gapWord0, gapWord1] ∧
    startKey gapWord1 - (1 : ℚ) ≥ MIN_GAP_SECONDS ∧
    wordEnd gapWord1 = some 0 ∧
    (continueToNextWord none (some gapSession) gapSched).1.currentWordIndex = 1 ∧
    (continueToNextWord none (some gapSession) gapSched).1.nextWordTimestamp = none ∧
    (none : Option ℚ) ≠ some 0 := by
  have hsorted : sortedEligible gapSession.focusWords = [gapWord0, gapWord1] := rfl
  have hgap : startKey gapWord1 - (1 : ℚ) ≥ MIN_GAP_SECONDS := by
    norm_num [startKey, wordStart, gapWord1, MIN_GAP_SECONDS]
  have hscan : scanNext (sortedEligible gapSession.focusWords)
      ((((sortedEligible gapSession.focusWords).get? 0).bind wordEnd).getD 0) (0 + 1) = 1 := by
    rw [show scanNext (sortedEligible gapSession.focusWords)
        ((((sortedEligible gapSession.focusWords).get? 0).bind wordEnd).getD 0) (0 + 1) =
        scanNext [gapWord0, gapWord1] 1 1 from rfl]
    rw [scanNext, dif_pos (by norm_num)]
    rw [if_pos (show startKey ([gapWord0, gapWord1].get ⟨1, by norm_num⟩) - 1 ≥
        MIN_GAP_SECONDS from hgap)]
  have heval := continueToNextWord_eq_found none gapSession gapSched 1 rfl hscan
    (by rw [hsorted]; norm_num)
  rw [heval]
  refine ⟨hsorted, hgap, rfl, rfl, ?_, by simp⟩
  rw [show (wordEnd ((sortedEligible gapSession.focusWords).get
      ⟨1, by rw [hsorted]; norm_num⟩)).getD 0 = (0 : ℚ) from rfl]
  simp

/-! ## Claim C3 -/

/-- Claim C3 (amended): for a session with at least one eligible word and a
player that passes the readiness check and carries seekTo, startWatching
arms the scheduler: isWatching true, index 0, next trigger equal to the
resolved end time of the first eligible word unless that end time is 0
(then null, from `endTime || null`), lastCheckedTime reset, and the widget
sought to max(0, session.startTime) before playback starts. -/
theorem startWatching_arms (p : Player) (sess : LearningSession) (s : SchedulerState)
    (w0 : Vocabulary) (rest : List Vocabulary)
    (hready : isPlayerReadyCheck (some p) = true)
    (hseek : p.hasSeekTo = true)
    (hws : sortedEligible sess.focusWords = w0 :: rest) :
    startWatching (some p) (some sess) s =
      ({ s with
          isWatching := true
          currentWordIndex := 0
          nextWordTimestamp :=
            if (wordEnd w0).getD 0 = 0 then none else some ((wordEnd w0).getD 0)
          lastCheckedTime := 0 },
        [Out.cmd (PlayerCmd.seekTo (max 0 sess.startTime)), Out.cmd PlayerCmd.play]) := by
  have hne : sess.focusWords.isEmpty = false := by
    cases hfw : sess.focusWords with
    | nil =>
      rw [hfw] at hws
      exact absurd hws (by simp [sortedEligible, sortByStartKey])
    | cons a l => rfl
  have hpl : p.hasPlayVideo = true := (ready_fields p hready).2.2.2
  simp only [startWatching, hne, hready, hws, hseek, hpl, Bool.not_true, Bool.false_eq_true,
    if_false, Bool.false_eq_true]
  simp

/-- Claim C3 witness: the armed state at a one-word session with a healthy
player, with the seek to max(0, 0) preceding the play command. -/
theorem startWatching_arms_witness :
    startWatching (some okPlayer) (some armSession) initialSched =
      ({ initialSched with
          isWatching := true
          currentWordIndex := 0
          nextWordTimestamp :=
            if (wordEnd (⟨"a", some 1, some 2, none, none⟩ : Vocabulary)).getD 0 = 0 then none
            else some ((wordEnd (⟨"a", some 1, some 2, none, none⟩ : Vocabulary)).getD 0)
          lastCheckedTime := 0 },
        [Out.cmd (PlayerCmd.seekTo (max 0 armSession.startTime)), Out.cmd PlayerCmd.play]) :=
  startWatching_arms okPlayer armSession initialSched ⟨"a", some 1, some 2, none, none⟩ []
    rfl rfl rfl

/-- Claim C3 counterexample: a ready player and a session whose single
eligible word ends at time 0 leave the next trigger null instead of equal to
the first word end time, because of the `endTime || null` coercion, so
startWatching never arms a trigger for that word. -/
theorem startWatching_zeroEnd_cx :
    zeroEndWord ∈ sortedEligible zeroEndSession.focusWords ∧
    wordEnd zeroEndWord = some 0 ∧
    isPlayerReadyCheck (some okPlayer) = true ∧
    (startWatching (some okPlayer) (some zeroEndSession) initialSched).1.isWatching = true ∧
    (startWatching (some okPlayer) (some zeroEndSession) initialSched).1.nextWordTimestamp =
      none ∧
    (none : Option ℚ) ≠ some 0 := by
  refine ⟨?_, rfl, rfl, rfl, rfl, by simp⟩
  show zeroEndWord ∈ [zeroEndWord]
  exact List.mem_singleton.mpr rfl

/-! ## Claim C2 -/

/-- Additivity of the encountered-event count over concatenation. -/
theorem countEncountered_append (a b : List Out) :
    countEncountered (a ++ b) = countEncountered a + countEncountered b :=
  List.countP_append _ _ _

/-- Branch analysis of one tick: either nothing fires and the trigger is
preserved, or the trigger fires with exactly one encountered event and the
trigger is cleared. -/
theorem checkVideoTime_cases (sess : Option LearningSession) (s : SchedulerState) (t : Tick) :
    (countEncountered (checkVideoTime sess s t).2 = 0 ∧
      (checkVideoTime sess s t).1.nextWordTimestamp = s.nextWordTimestamp) ∨
    (countEncountered (checkVideoTime sess s t).2 = 1 ∧
      (checkVideoTime sess s t).1.nextWordTimestamp = none) := by
  unfold checkVideoTime
  split
  · exact Or.inl ⟨rfl, rfl⟩
  · split
    · exact Or.inl ⟨rfl, rfl⟩
    · split
      · exact Or.inl ⟨rfl, rfl⟩
      · split
        · split
          · exact Or.inl ⟨rfl, rfl⟩
          · split
            · exact Or.inl ⟨rfl, rfl⟩
            · split
              · dsimp only
                split
                · exact Or.inr ⟨rfl, rfl⟩
                · exact Or.inl ⟨rfl, rfl⟩
              · exact Or.inl ⟨rfl, rfl⟩
        · exact Or.inl ⟨rfl, rfl⟩

/-- A run of ticks from a state with no trigger does nothing. -/
theorem runTicks_none (sess : Option LearningSession) (ts : List Tick) (s : SchedulerState)
    (h : s.nextWordTimestamp = none) : runTicks sess s ts = (s, []) := by
  induction ts with
  | nil => rfl
  | cons t ts ih =>
    have hct : checkVideoTime sess s t = (s, []) := by
      simp [checkVideoTime, h]
    simp [runTicks, hct, ih]

/-- Any run of ticks fires the word-encountered event at most once. -/
theorem runTicks_encountered_le_one (sess : Option LearningSession) :
    ∀ (ts : List Tick) (s : SchedulerState),
      countEncountered (runTicks sess s ts).2 ≤ 1 := by
  intro ts
  induction ts with
  | nil => intro s; simp [runTicks, countEncountered]
  | cons t ts ih =>
    intro s
    simp only [runTicks, countEncountered_append]
    rcases checkVideoTime_cases sess s t with ⟨h0, _⟩ | ⟨h1, hn⟩
    · have := ih (checkVideoTime sess s t).1
      omega
    · rw [runTicks_none sess ts _ hn]
      simp only [h1]
      simp [countEncountered]

/-- Evaluation helper: the firing tick, with every guard satisfied. -/
theorem checkVideoTime_fire (sess : Option LearningSession) (s : SchedulerState) (t : Tick)
    (T ct ps : ℚ) (w : Vocabulary)
    (hT : s.nextWordTimestamp = some T)
    (hw : s.isWatching = true)
    (hready : t.ready = true)
    (htime : t.time = ProbeResult.num ct)
    (hstate : t.state = ProbeResult.num ps)
    (hps : ps = 1)
    (hdedup : ¬ |ct - s.lastCheckedTime| < dedupSeconds)
    (htrig : ct ≥ T - bufferSeconds)
    (hidx : (sortedEligible ((sess.map LearningSession.focusWords).getD [])).get?
        s.currentWordIndex = some w) :
    checkVideoTime sess s t =
      ({ s with lastCheckedTime := ct, nextWordTimestamp := none },
        [Out.cmd PlayerCmd.pause, Out.encountered w,
         Out.stateChange LearningPanelState.focus]) := by
  subst hps
  simp only [checkVideoTime, hT, hw, hready, htime, hstate, Bool.not_true, Bool.false_eq_true,
    if_false, ne_eq, not_true_eq_false, if_true]
  rw [if_neg hdedup, if_pos htrig]
  simp only [hidx]

/-- Claim C2 (amended): while the scheduler is armed with a fixed trigger T
and a word at the current index, a tick that observes the player playing at
a time at least T - 0.3 and at least 0.5 seconds of video time away from the
last accepted check (the dedup guard the claim omits) pauses the playing
widget, emits the encountered word and the focus state change, and clears
the trigger; the run consisting of that tick followed by any further ticks
fires the word-encountered event exactly once, and any run of ticks fires it
at most once. -/
theorem checkVideoTime_once (sess : Option LearningSession) (s : SchedulerState) (t : Tick)
    (T ct ps : ℚ) (w : Vocabulary)
    (hT : s.nextWordTimestamp = some T)
    (hw : s.isWatching = true)
    (hready : t.ready = true)
    (htime : t.time = ProbeResult.num ct)
    (hstate : t.state = ProbeResult.num ps)
    (hps : ps = 1)
    (hdedup : ¬ |ct - s.lastCheckedTime| < dedupSeconds)
    (htrig : ct ≥ T - bufferSeconds)
    (hidx : (sortedEligible ((sess.map LearningSession.focusWords).getD [])).get?
        s.currentWordIndex = some w) :
    checkVideoTime sess s t =
      ({ s with lastCheckedTime := ct, nextWordTimestamp := none },
        [Out.cmd PlayerCmd.pause, Out.encountered w,
         Out.stateChange LearningPanelState.focus]) ∧
    (∀ ticks : List Tick, countEncountered (runTicks sess s (t :: ticks)).2 = 1) ∧
    (∀ ticks : List Tick, ∀ s0 : SchedulerState,
      countEncountered (runTicks sess s0 ticks).2 ≤ 1) := by
  have hfire := checkVideoTime_fire sess s t T ct ps w hT hw hready htime hstate hps hdedup
    htrig hidx
  refine ⟨hfire, ?_, fun ticks s0 => runTicks_encountered_le_one sess ticks s0⟩
  intro ticks
  simp only [runTicks, hfire, countEncountered_append]
  rw [runTicks_none sess ticks _ rfl]
  simp [countEncountered]

/-- Claim C2 witness: a firing tick at a one-word session, with the guards
discharged concretely, followed by the empty tail run. -/
theorem checkVideoTime_once_witness :
    checkVideoTime (some armSession) ⟨true, 0, some 2, 0, true⟩
        ⟨true, ProbeResult.num 2, ProbeResult.num 1⟩ =
      (⟨true, 0, none, 2, true⟩,
        [Out.cmd PlayerCmd.pause, Out.encountered ⟨"a", some 1, some 2, none, none⟩,
         Out.stateChange LearningPanelState.focus]) :=
  (checkVideoTime_once (some armSession) ⟨true, 0, some 2, 0, true⟩
      ⟨true, ProbeResult.num 2, ProbeResult.num 1⟩ 2 2 1 ⟨"a", some 1, some 2, none, none⟩
      rfl rfl rfl rfl rfl rfl (by norm_num [dedupSeconds]) (by norm_num [bufferSeconds])
      rfl).1

/-- Claim C2 counterexample: a scheduler armed at trigger 1/2 with
lastCheckedTime 0 (exactly the armed state startWatching produces for a word
ending at 1/2) ignores a playing tick at video time 3/10, although
3/10 is at least 1/2 - 0.3: the 0.5-second video-time dedup guard suppresses
the tick, so the first playing tick past the trigger window does not always
fire the event as the claim requires. -/
theorem checkVideoTime_dedup_cx :
    ((3 : ℚ)/10 ≥ 1/2 - bufferSeconds) ∧
    (⟨true, 0, some (1/2), 0, true⟩ : SchedulerState).isWatching = true ∧
    (⟨true, 0, some (1/2), 0, true⟩ : SchedulerState).nextWordTimestamp = some (1/2) ∧
    checkVideoTime (some nearSession) ⟨true, 0, some (1/2), 0, true⟩
        ⟨true, ProbeResult.num (3/10), ProbeResult.num 1⟩ =
      (⟨true, 0, some (1/2), 0, true⟩, []) ∧
    countEncountered ([] : List Out) = 0 := by
  refine ⟨by norm_num [bufferSeconds], rfl, rfl, ?_, rfl⟩
  have hd : |(3 : ℚ)/10 - 0| < dedupSeconds := by
    rw [sub_zero, abs_of_pos (by norm_num : (0 : ℚ) < 3/10)]
    norm_num [dedupSeconds]
  simp only [checkVideoTime, Bool.not_true, Bool.false_eq_true, if_false, ne_eq,
    eq_self_iff_true, not_true_eq_false]
  rw [if_pos hd]

/-! ## Claim C7 -/

/-- Output shapes of continueToNextWord: nothing, the cruising change with
or without the resume command, or the summary change. -/
theorem continueToNextWord_outs (player : Option Player) (cs : Option LearningSession)
    (s : SchedulerState) :
    (continueToNextWord player cs s).2 = [] ∨
    (continueToNextWord player cs s).2 = [Out.stateChange LearningPanelState.cruising] ∨
    (continueToNextWord player cs s).2 =
      [Out.stateChange LearningPanelState.cruising, Out.cmd PlayerCmd.play] ∨
    (continueToNextWord player cs s).2 = [Out.stateChange LearningPanelState.summary] := by
  unfold continueToNextWord
  split
  · exact Or.inl rfl
  · split
    · exact Or.inl rfl
    · dsimp only
      split
      · dsimp only
        by_cases hr : isPlayerReadyCheck player = true
        · rw [if_pos hr]
          exact Or.inr (Or.inr (Or.inl rfl))
        · rw [if_neg hr]
          exact Or.inr (Or.inl rfl)
      · exact Or.inr (Or.inr (Or.inr rfl))

/-- Output shapes of one tick: nothing, or the pause, encountered word and
focus change of a firing trigger. -/
theorem checkVideoTime_outs (cs : Option LearningSession) (s : SchedulerState) (t : Tick) :
    (checkVideoTime cs s t).2 = [] ∨
    ∃ w, (checkVideoTime cs s t).2 =
      [Out.cmd PlayerCmd.pause, Out.encountered w,
       Out.stateChange LearningPanelState.focus] := by
  unfold checkVideoTime
  split
  · exact Or.inl rfl
  · split
    · exact Or.inl rfl
    · split
      · exact Or.inl rfl
      · split
        · split
          · exact Or.inl rfl
          · split
            · exact Or.inl rfl
            · split
              · dsimp only
                split
                · exact Or.inr ⟨_, rfl⟩
                · exact Or.inl rfl
              · exact Or.inl rfl
        · exact Or.inl rfl

/-- Claim C7 (amended): from the cruising panel state the only events that
change the panel state are the scheduler tick firing the word-encountered
event (to focus), a user word click in the legacy vocabulary list (to
focus), and the host-level resets content extraction and back-to-homepage
(to preview); from focus, only practice completion (to cruising or summary,
through the scheduler) and the same two host-level resets; the panel is a
pure event-step function and never moves without an event. -/
theorem panel_transitions_amended (player : Option Player) (st : AppState) (e : UEvent) :
    (st.panel = LearningPanelState.cruising →
      (step player st e).panel ≠ LearningPanelState.cruising →
      ((∃ t, e = UEvent.schedTick t) ∧
        (step player st e).panel = LearningPanelState.focus) ∨
      ((∃ w, e = UEvent.wordClickItem w) ∧
        (step player st e).panel = LearningPanelState.focus) ∨
      ((∃ ss, e = UEvent.extractContentDone ss) ∧
        (step player st e).panel = LearningPanelState.preview) ∨
      (e = UEvent.backToHomepage ∧
        (step player st e).panel = LearningPanelState.preview)) ∧
    (st.panel = LearningPanelState.focus →
      (step player st e).panel ≠ LearningPanelState.focus →
      (e = UEvent.practiceComplete ∧
        ((step player st e).panel = LearningPanelState.cruising ∨
          (step player st e).panel = LearningPanelState.summary)) ∨
      ((∃ ss, e = UEvent.extractContentDone ss) ∧
        (step player st e).panel = LearningPanelState.preview) ∨
      (e = UEvent.backToHomepage ∧
        (step player st e).panel = LearningPanelState.preview)) := by
  have hsp : (step player st e).panel = (stepCore player st e).panel :=
    autoSync_panel player (stepCore player st e)
  rw [hsp]
  cases e with
  | schedTick t =>
    constructor
    · intro hc hne
      rcases checkVideoTime_outs st.currentSession st.sched t with h | ⟨w, h⟩
      · exact absurd (by simp [stepCore, h, applyOuts, hc]) hne
      · exact Or.inl ⟨⟨t, rfl⟩, by simp [stepCore, h, applyOuts]⟩
    · intro hf hne
      rcases checkVideoTime_outs st.currentSession st.sched t with h | ⟨w, h⟩
      · exact absurd (by simp [stepCore, h, applyOuts, hf]) hne
      · exact absurd (by simp [stepCore, h, applyOuts, hf]) hne
  | practiceComplete =>
    constructor
    · intro hc hne
      exact absurd (by simp [stepCore, hc]) hne
    · intro hf hne
      rcases continueToNextWord_outs player st.currentSession st.sched with h | h | h | h
      · exact absurd (by simp [stepCore, hf, h, applyOuts]) hne
      · exact Or.inl ⟨rfl, Or.inl (by simp [stepCore, hf, h, applyOuts])⟩
      · exact Or.inl ⟨rfl, Or.inl (by simp [stepCore, hf, h, applyOuts])⟩
      · exact Or.inl ⟨rfl, Or.inr (by simp [stepCore, hf, h, applyOuts])⟩
  | startWatchingClick f =>
    constructor
    · intro hc hne
      exact absurd (by simp [stepCore, hc]) hne
    · intro hf hne
      exact absurd (by simp [stepCore, hf]) hne
  | wordClickItem w =>
    constructor
    · intro hc hne
      exact Or.inr (Or.inl ⟨⟨w, rfl⟩, by simp [stepCore, hc]⟩)
    · intro hf hne
      exact absurd (by simp [stepCore, hf]) hne
  | nextSessionClick =>
    constructor
    · intro hc hne
      exact absurd (by simp [stepCore, hc]) hne
    · intro hf hne
      exact absurd (by simp [stepCore, hf]) hne
  | reviewSessionClick =>
    constructor
    · intro hc hne
      exact absurd (by simp [stepCore, hc]) hne
    · intro hf hne
      exact absurd (by simp [stepCore, hf]) hne
  | extractContentDone sessions =>
    constructor
    · intro hc hne
      cases hh : sessions.head? with
      | none => exact absurd (by simp [stepCore, hh, hc]) hne
      | some s0 =>
        exact Or.inr (Or.inr (Or.inl ⟨⟨sessions, rfl⟩, by simp [stepCore, hh]⟩))
    · intro hf hne
      cases hh : sessions.head? with
      | none => exact absurd (by simp [stepCore, hh, hf]) hne
      | some s0 =>
        exact Or.inr (Or.inl ⟨⟨sessions, rfl⟩, by simp [stepCore, hh]⟩)
  | backToHomepage =>
    constructor
    · intro hc hne
      exact Or.inr (Or.inr (Or.inr ⟨rfl, by simp [stepCore]⟩))
    · intro hf hne
      exact Or.inr (Or.inr ⟨rfl, by simp [stepCore]⟩)
  | wordMastered r tgt =>
    constructor
    · intro hc hne
      exact absurd (by simp [stepCore, hc]) hne
    · intro hf hne
      exact absurd (by simp [stepCore, hf]) hne

/-- Claim C7 witness: the amended theorem applied to the back-to-homepage
reset from a concrete cruising state. -/
theorem panel_transitions_amended_witness :
    ((∃ t, (UEvent.backToHomepage : UEvent) = UEvent.schedTick t) ∧
      (step none cruisingApp UEvent.backToHomepage).panel = LearningPanelState.focus) ∨
    ((∃ w, (UEvent.backToHomepage : UEvent) = UEvent.wordClickItem w) ∧
      (step none cruisingApp UEvent.backToHomepage).panel = LearningPanelState.focus) ∨
    ((∃ ss, (UEvent.backToHomepage : UEvent) = UEvent.extractContentDone ss) ∧
      (step none cruisingApp UEvent.backToHomepage).panel = LearningPanelState.preview) ∨
    ((UEvent.backToHomepage : UEvent) = UEvent.backToHomepage ∧
      (step none cruisingApp UEvent.backToHomepage).panel = LearningPanelState.preview) :=
  (panel_transitions_amended none cruisingApp UEvent.backToHomepage).1 rfl
    (by simp [step, stepCore, autoSync, cruisingApp, stopWatching])

/-- Claim C7 counterexample: a user word click while the panel is cruising
moves it to focus, though the click is not the scheduler word-encountered
event, refuting the claim that from cruising only the scheduler event
changes the panel state. -/
theorem wordClick_changes_cruising :
    (step none cruisingApp (UEvent.wordClickItem clickWord)).panel =
      LearningPanelState.focus ∧
    LearningPanelState.focus ≠ LearningPanelState.cruising ∧
    ∀ t, (UEvent.wordClickItem clickWord : UEvent) ≠ UEvent.schedTick t :=
  ⟨rfl, by decide, fun t h => UEvent.noConfusion h⟩
